import Mathlib

/-!
Shallow embedding of the natural-language-to-MongoDB query pipeline of
`src/app.py` (class `QueryAgent` and function `execute_query`), together with
a model of the external document-store collaborator, and theorems settling the
frozen claims about the specification.

Conventions of the embedding:
* Python `dict`s coming from JSON are association lists with unique keys
  (uniqueness is enforced where the dicts are built, mirroring `json.loads`,
  which keeps the last value for a duplicated key at the first key's position).
* Python exceptions are `Except String`; the `try/except` of `execute_query`
  is the final `match` turning an `error` into the formatted error string.
* `json.loads` is embedded as a total recursive-descent parser over the
  character list, faithful to Python's grammar except that non-integer numeric
  literals (fractions/exponents) are rejected rather than parsed: every query
  shape documented for this program uses integer literals only, and on such
  inputs both behaviours end in the same recovered-error path of the executor.
* The pymongo collection handle is an explicit structure of fallible
  operations (spec section 6); a concrete list-backed model instantiates it.
-/

namespace CsvAgent

/-- A JSON value as produced by `json.loads`; numbers are modelled as
integers (see the module comment). -/
inductive Json where
  | null
  | bool (b : Bool)
  | num (n : Int)
  | str (s : String)
  | arr (elements : List Json)
  | obj (members : List (String × Json))

/-- A MongoDB document as returned by pymongo: field names to values,
in insertion order. -/
abbrev Doc := List (String × Json)

/-- Structural equality of JSON values, used for Python `==` on values read
from JSON.  Python additionally identifies `True == 1`; that coercion never
matters here because every comparison in the program is against a string. -/
def jsonBeq : Json → Json → Bool
  | .null, .null => true
  | .bool a, .bool b => a == b
  | .num a, .num b => a == b
  | .str a, .str b => a == b
  | .arr [], .arr [] => true
  | .arr (a :: as), .arr (b :: bs) => jsonBeq a b && jsonBeq (.arr as) (.arr bs)
  | .obj [], .obj [] => true
  | .obj ((k, v) :: fs), .obj ((l, w) :: gs) =>
      k == l && jsonBeq v w && jsonBeq (.obj fs) (.obj gs)
  | _, _ => false

/-- Sequencing of fallible steps: Python control flow inside the `try` block
of `execute_query` (an exception aborts the rest of the block). -/
def ebind (x : Except String α) (f : α → Except String β) : Except String β :=
  match x with
  | .error e => .error e
  | .ok a => f a

/-- The opening-brace character, `{`. -/
def lbrace : Char := Char.ofNat 123

/-- The closing-brace character, `}`. -/
def rbrace : Char := Char.ofNat 125

/-- The backtick character, used by the markdown code fences the model wraps
its queries in. -/
def btick : Char := Char.ofNat 96

/-- JSON insignificant whitespace (RFC 8259: space, tab, newline, return). -/
def isJsonWs (c : Char) : Bool := [' ', '\t', '\n', '\r'].contains c

/-- Python `str.strip()` whitespace (ASCII part: space, tab, newline, return,
vertical tab, form feed). -/
def isPyWs (c : Char) : Bool :=
  [' ', '\t', '\n', '\r', Char.ofNat 11, Char.ofNat 12].contains c

/-- Drop leading JSON whitespace. -/
def dropWs : List Char → List Char
  | [] => []
  | c :: cs => if isJsonWs c then dropWs cs else c :: cs

/-- Does the pattern `p` begin the list `s`? -/
def begins : List Char → List Char → Bool
  | [], _ => true
  | _ :: _, [] => false
  | p :: ps, c :: cs => p == c && begins ps cs

/-- Does the pattern `p` occur anywhere in `s` (as a contiguous run)? -/
def occurs (p : List Char) : List Char → Bool
  | [] => begins p []
  | c :: cs => begins p (c :: cs) || occurs p cs

/-- An ASCII decimal digit. -/
def isDig (c : Char) : Bool := '0' ≤ c && c ≤ '9'

/-- Split a run of leading digits off the input. -/
def grabDigits : List Char → List Char × List Char
  | [] => ([], [])
  | c :: cs =>
      if isDig c then
        let (ds, rest) := grabDigits cs
        (c :: ds, rest)
      else ([], c :: cs)

/-- Numeric value of a digit run (code point 48 is `0`). -/
def digitsVal (ds : List Char) : Nat :=
  ds.foldl (fun a c => 10 * a + (c.toNat - 48)) 0

/-- Value of a hexadecimal digit, if it is one (digits, then lowercase and
uppercase letters, by code point). -/
def hexDigitVal (c : Char) : Option Nat :=
  let n := c.toNat
  if 48 ≤ n && n ≤ 57 then some (n - 48)
  else if 97 ≤ n && n ≤ 102 then some (n - 87)
  else if 65 ≤ n && n ≤ 70 then some (n - 55)
  else none

/-- Decode one escape character of a JSON string (the single-character
escapes; `\u` is handled separately).  Quote, backslash and slash map to
themselves; the rest are the usual control-character mnemonics. -/
def escChar (c : Char) : Option Char :=
  if c == '"' || c == '\\' || c == '/' then some c
  else if c == 'b' then some (Char.ofNat 8)
  else if c == 'f' then some (Char.ofNat 12)
  else if c == 'n' then some '\n'
  else if c == 'r' then some '\r'
  else if c == 't' then some '\t'
  else none

/-- Parse the body of a JSON string literal, after the opening quote; returns
the decoded string and the input after the closing quote.  `\uXXXX` escapes
outside the surrogate range decode to the corresponding character; surrogate
escapes are rejected (the program's query strings never contain them). -/
def jsonStrBody (acc : List Char) : List Char → Except String (String × List Char)
  | [] => .error "Unterminated string"
  | '"' :: rest => .ok (String.mk acc.reverse, rest)
  | '\\' :: 'u' :: a :: b :: c :: d :: rest =>
      match hexDigitVal a, hexDigitVal b, hexDigitVal c, hexDigitVal d with
      | some va, some vb, some vc, some vd =>
          let n := ((va * 16 + vb) * 16 + vc) * 16 + vd
          if 0xD800 ≤ n && n ≤ 0xDFFF then .error "Unsupported surrogate escape"
          else jsonStrBody (Char.ofNat n :: acc) rest
      | _, _, _, _ => .error "Invalid hex escape"
  | '\\' :: e :: rest =>
      match escChar e with
      | some ch => jsonStrBody (ch :: acc) rest
      | none => .error "Invalid escape"
  | c :: rest =>
      if c.toNat < 32 then .error "Invalid control character"
      else jsonStrBody (c :: acc) rest

/-- Parse an unsigned JSON digit run (leading zeros rejected as in
Python's decoder). -/
def jsonDigitsPart (cs : List Char) : Except String (Nat × List Char) :=
  match grabDigits cs with
  | ([], _) => .error "Expecting value"
  | (d :: ds, rest) =>
      if d == '0' && !ds.isEmpty then .error "Expecting value"
      else .ok (digitsVal (d :: ds), rest)

/-- Parse a JSON integer literal: an optional minus sign, then digits. -/
def jsonInt (cs : List Char) : Except String (Int × List Char) :=
  match cs with
  | '-' :: r =>
      match jsonDigitsPart r with
      | .ok (n, rest) => .ok (-(n : Int), rest)
      | .error e => .error e
  | _ =>
      match jsonDigitsPart cs with
      | .ok (n, rest) => .ok ((n : Int), rest)
      | .error e => .error e

/-- Insert a member into an object under construction: a repeated key keeps
its first position but takes the last value, as Python `dict` updates do. -/
def objUpsert (fs : List (String × Json)) (k : String) (v : Json) :
    List (String × Json) :=
  if fs.any (fun kv => kv.1 == k) then
    fs.map (fun kv => if kv.1 == k then (k, v) else kv)
  else fs ++ [(k, v)]

mutual

/-- Recursive-descent parse of one JSON value; `fuel` dominates the nesting
depth (callers pass more fuel than the input length, which suffices because
every recursive step first consumes at least one character). -/
def jsonVal (fuel : Nat) (cs : List Char) : Except String (Json × List Char) :=
  match fuel with
  | 0 => .error "Nesting exhausted the parser fuel"
  | fuel + 1 =>
    match dropWs cs with
    | [] => .error "Expecting value"
    | c :: rest =>
      if c == 'n' then
        match rest with
        | 'u' :: 'l' :: 'l' :: r => .ok (.null, r)
        | _ => .error "Expecting value"
      else if c == 't' then
        match rest with
        | 'r' :: 'u' :: 'e' :: r => .ok (.bool true, r)
        | _ => .error "Expecting value"
      else if c == 'f' then
        match rest with
        | 'a' :: 'l' :: 's' :: 'e' :: r => .ok (.bool false, r)
        | _ => .error "Expecting value"
      else if c == '"' then
        match jsonStrBody [] rest with
        | .ok (s, r) => .ok (.str s, r)
        | .error e => .error e
      else if c == '-' || isDig c then
        match jsonInt (c :: rest) with
        | .ok (n, r) => .ok (.num n, r)
        | .error e => .error e
      else if c == lbrace then
        match dropWs rest with
        | [] => .error "Expecting property name"
        | d :: r2 =>
            if d == rbrace then .ok (.obj [], r2)
            else jsonObjTail fuel [] (d :: r2)
      else if c == '[' then
        match dropWs rest with
        | [] => .error "Expecting value"
        | d :: r2 =>
            if d == ']' then .ok (.arr [], r2)
            else jsonArrTail fuel [] (d :: r2)
      else .error "Expecting value"

/-- Parse the members of a nonempty JSON object, accumulating into `acc`. -/
def jsonObjTail (fuel : Nat) (acc : List (String × Json)) (cs : List Char) :
    Except String (Json × List Char) :=
  match fuel with
  | 0 => .error "Nesting exhausted the parser fuel"
  | fuel + 1 =>
    match cs with
    | '"' :: rest =>
        match jsonStrBody [] rest with
        | .error e => .error e
        | .ok (key, r1) =>
            match dropWs r1 with
            | ':' :: r2 =>
                match jsonVal fuel r2 with
                | .error e => .error e
                | .ok (v, r3) =>
                    let acc := objUpsert acc key v
                    match dropWs r3 with
                    | ',' :: r4 =>
                        match dropWs r4 with
                        | [] => .error "Expecting property name"
                        | d :: r5 => jsonObjTail fuel acc (d :: r5)
                    | e :: r4 =>
                        if e == rbrace then .ok (.obj acc, r4)
                        else .error "Expecting delimiter"
                    | [] => .error "Expecting delimiter"
            | _ => .error "Expecting colon delimiter"
    | _ => .error "Expecting property name"

/-- Parse the elements of a nonempty JSON array, accumulating into `acc`. -/
def jsonArrTail (fuel : Nat) (acc : List Json) (cs : List Char) :
    Except String (Json × List Char) :=
  match fuel with
  | 0 => .error "Nesting exhausted the parser fuel"
  | fuel + 1 =>
    match jsonVal fuel cs with
    | .error e => .error e
    | .ok (v, r) =>
        match dropWs r with
        | ',' :: r2 => jsonArrTail fuel (acc ++ [v]) r2
        | ']' :: r2 => .ok (.arr (acc ++ [v]), r2)
        | _ => .error "Expecting delimiter"

end

/-- The embedding of `json.loads`: parse one value, then require only
whitespace to follow, as the Python decoder does. -/
def jsonParse (s : String) : Except String Json :=
  match jsonVal (s.length + 2) s.toList with
  | .error e => .error e
  | .ok (v, rest) =>
      if (dropWs rest).isEmpty then .ok v else .error "Extra data"

/-- A single-quote character as a one-character string, for Python-style
`repr` output and error messages. -/
def squote : String := String.singleton (Char.ofNat 39)

/-- The name Python reports for the runtime type of a JSON-decoded value. -/
def pyTypeName : Json → String
  | .null => "NoneType"
  | .bool _ => "bool"
  | .num _ => "int"
  | .str _ => "str"
  | .arr _ => "list"
  | .obj _ => "dict"

/-- Python truthiness of a JSON-decoded value (`if fields:` in the source):
`None`, `False`, `0`, and empty strings/lists/dicts are falsy. -/
def pyTruthy : Json → Bool
  | .null => false
  | .bool b => b
  | .num n => n != 0
  | .str s => !s.isEmpty
  | .arr xs => !xs.isEmpty
  | .obj fs => !fs.isEmpty

/-- Python `key in value` for a JSON-decoded value: key membership for a
dict, element equality for a list, substring search for a string, and a
`TypeError` otherwise — exactly the dispatch guards of `execute_query`. -/
def pyIn (key : String) : Json → Except String Bool
  | .obj fs => .ok (fs.lookup key).isSome
  | .arr xs => .ok (xs.any fun v => jsonBeq v (.str key))
  | .str s => .ok (occurs key.toList s.toList)
  | v => .error ("TypeError: argument of type " ++ squote ++ pyTypeName v ++
      squote ++ " is not iterable")

/-- Python `value[key]` with a string key on a JSON-decoded value. -/
def pyGetItem (v : Json) (key : String) : Except String Json :=
  match v with
  | .obj fs =>
      match fs.lookup key with
      | some w => .ok w
      | none => .error ("KeyError: " ++ squote ++ key ++ squote)
  | .str _ => .error "TypeError: string indices must be integers"
  | .arr _ => .error "TypeError: list indices must be integers or slices, not str"
  | w => .error ("TypeError: " ++ squote ++ pyTypeName w ++ squote ++
      " object is not subscriptable")

/-- Python `value.get(key, default)`: only dicts have `.get`. -/
def pyDictGet (v : Json) (key : String) (dflt : Json) : Except String Json :=
  match v with
  | .obj fs => .ok ((fs.lookup key).getD dflt)
  | w => .error ("AttributeError: " ++ squote ++ pyTypeName w ++ squote ++
      " object has no attribute " ++ squote ++ "get" ++ squote)

/-- Python `value == "lit"` for a JSON-decoded value: true exactly for the
equal string (no other JSON value compares equal to a string). -/
def pyEqStr (v : Json) (lit : String) : Bool :=
  match v with
  | .str s => s == lit
  | _ => false

mutual

/-- Python `str()` (`asRepr = false`) and `repr()` (`asRepr = true`) of a
JSON-decoded value, as interpolated by the record formatter's f-string.
`repr` of a string is modelled as plain single-quoting (the values the
witnesses render contain no quotes or control characters). -/
def pyRender (asRepr : Bool) : Json → String
  | .null => "None"
  | .bool b => if b then "True" else "False"
  | .num n => toString n
  | .str s => if asRepr then squote ++ s ++ squote else s
  | .arr xs => "[" ++ pyRenderItems xs ++ "]"
  | .obj fs => String.singleton lbrace ++ pyRenderPairs fs ++ String.singleton rbrace

/-- Elements of a Python list display, comma-separated, via `repr`. -/
def pyRenderItems : List Json → String
  | [] => ""
  | [x] => pyRender true x
  | x :: y :: xs => pyRender true x ++ ", " ++ pyRenderItems (y :: xs)

/-- Members of a Python dict display, comma-separated, via `repr`. -/
def pyRenderPairs : List (String × Json) → String
  | [] => ""
  | [kv] => squote ++ kv.1 ++ squote ++ ": " ++ pyRender true kv.2
  | kv :: l :: ls =>
      squote ++ kv.1 ++ squote ++ ": " ++ pyRender true kv.2 ++ ", " ++
      pyRenderPairs (l :: ls)

end

/-- Python `str()` of a JSON-decoded value. -/
def pyStr : Json → String := pyRender false

/-- One hexadecimal digit, lowercase (code points 48 for `0`, 87 + 10 for
`a`). -/
def hexChar (n : Nat) : Char :=
  Char.ofNat (if n < 10 then 48 + n else 87 + n)

/-- Four-digit lowercase hexadecimal rendering, as in `\uXXXX` escapes. -/
def hex4 (n : Nat) : String :=
  String.mk [hexChar (n / 4096 % 16), hexChar (n / 256 % 16),
             hexChar (n / 16 % 16), hexChar (n % 16)]

/-- A `\uXXXX` escape (or surrogate pair) for a code point, as emitted by
`json.dumps` with its default `ensure_ascii`. -/
def escUnicode (n : Nat) : String :=
  if n < 0x10000 then "\\u" ++ hex4 n
  else
    let m := n - 0x10000
    "\\u" ++ hex4 (0xD800 + m / 0x400) ++ "\\u" ++ hex4 (0xDC00 + m % 0x400)

/-- `json.dumps` escaping of one string character. -/
def escJsonChar (c : Char) : String :=
  if c == '"' then "\\\""
  else if c == '\\' then "\\\\"
  else if c == '\n' then "\\n"
  else if c == '\r' then "\\r"
  else if c == '\t' then "\\t"
  else if c.toNat == 8 then "\\b"
  else if c.toNat == 12 then "\\f"
  else if c.toNat < 32 || c.toNat > 126 then escUnicode c.toNat
  else String.singleton c

/-- `json.dumps` rendering of a string literal. -/
def jsonQuote (s : String) : String :=
  "\"" ++ String.join (s.toList.map escJsonChar) ++ "\""

/-- The indentation in front of a line at nesting `level` under
`json.dumps(..., indent=2)`. -/
def pad (level : Nat) : String := String.mk (List.replicate (2 * level) ' ')

mutual

/-- `json.dumps(v, indent=2)` at nesting `level` (the aggregation branch of
`execute_query` serializes its raw result list this way). -/
def dumpsVal (level : Nat) : Json → String
  | .null => "null"
  | .bool b => if b then "true" else "false"
  | .num n => toString n
  | .str s => jsonQuote s
  | .arr [] => "[]"
  | .arr (x :: xs) =>
      "[\n" ++ dumpsItems (level + 1) (x :: xs) ++ "\n" ++ pad level ++ "]"
  | .obj [] => String.singleton lbrace ++ String.singleton rbrace
  | .obj (kv :: fs) =>
      String.singleton lbrace ++ "\n" ++ dumpsPairs (level + 1) (kv :: fs) ++
      "\n" ++ pad level ++ String.singleton rbrace

/-- Indented, comma-separated array elements of `json.dumps(..., indent=2)`. -/
def dumpsItems (level : Nat) : List Json → String
  | [] => ""
  | [x] => pad level ++ dumpsVal level x
  | x :: y :: xs =>
      pad level ++ dumpsVal level x ++ ",\n" ++ dumpsItems level (y :: xs)

/-- Indented, comma-separated object members of `json.dumps(..., indent=2)`. -/
def dumpsPairs (level : Nat) : List (String × Json) → String
  | [] => ""
  | [kv] => pad level ++ jsonQuote kv.1 ++ ": " ++ dumpsVal level kv.2
  | kv :: l :: ls =>
      pad level ++ jsonQuote kv.1 ++ ": " ++ dumpsVal level kv.2 ++ ",\n" ++
      dumpsPairs level (l :: ls)

end

/-- Accumulate the dict comprehension over an iterated list of field names.
Python would happily build a dict with non-string keys, and pymongo would
then reject the projection document when `find` runs; the model surfaces
that collection-layer failure at construction, which lands in the same
surrounding exception handler. -/
def projectionFromList (acc : List (String × Json)) :
    List Json → Except String (List (String × Json))
  | [] => .ok acc
  | .str s :: rest => projectionFromList (objUpsert acc s (.num 1)) rest
  | _ :: _ => .error "InvalidDocument: documents must have only string keys"

/-- The dict comprehension `\x7bfield: 1 for field in fields\x7d` of the find
branch, over whatever JSON value `fields` decoded to: a list yields its
elements as keys, a string its characters, a dict its keys; numbers and
booleans are not iterable. -/
def buildProjection : Json → Except String Json
  | .arr xs =>
      match projectionFromList [] xs with
      | .ok fs => .ok (.obj fs)
      | .error e => .error e
  | .str s =>
      .ok (.obj (s.toList.foldl
        (fun acc ch => objUpsert acc (String.singleton ch) (.num 1)) []))
  | .obj fs =>
      .ok (.obj (fs.foldl (fun acc kv => objUpsert acc kv.1 (.num 1)) []))
  | v => .error ("TypeError: " ++ squote ++ pyTypeName v ++ squote ++
      " object is not iterable")

/-- The projection decision of the find branch, source line
`projection = \x7bfield: 1 for field in fields\x7d if fields else None`:
a falsy `fields` (absent, `null`, or an empty list) means no projection. -/
def projectionOf (fields : Json) : Except String (Option Json) :=
  if pyTruthy fields then
    match buildProjection fields with
    | .ok p => .ok (some p)
    | .error e => .error e
  else .ok none

/-- The document-collection collaborator consumed by the executor
(spec section 6): each operation may fail with a query-execution error,
which the model carries as `Except.error`. -/
structure Collection where
  count_documents : Json → Except String Nat
  find : Json → Option Json → Except String (List Doc)
  aggregate : Json → Except String (List Json)

/-- `doc.pop('_id', None)`: remove the internal identity field from a
document before it is rendered. -/
def stripId (d : Doc) : Doc := d.filter fun kv => kv.1 != "_id"

/-- One `"Record:\n  <field>: <value>..."` block of the find-branch report,
rendered from a document after the identity field is removed. -/
def renderRecord (d : Doc) : String :=
  "Record:\n" ++ String.intercalate "\n"
    ((stripId d).map fun kv => "  " ++ kv.1 ++ ": " ++ pyStr kv.2)

/-- The find-branch report for a list of matching documents: the literal
no-match string for zero matches, otherwise the match count and the
blank-line-separated record blocks. -/
def renderMatches (ms : List Doc) : String :=
  if ms.isEmpty then "No matching records found"
  else
    "Found " ++ toString ms.length ++ " matches:\n\n" ++
    String.intercalate "\n\n" (ms.map renderRecord)

/-- The whole observable outcome of running `find` in the find branch: a
collection-layer failure becomes the formatted error string, success is
rendered by `renderMatches`. -/
def renderFindOutcome (r : Except String (List Doc)) : String :=
  match r with
  | .error e => "Error processing query: " ++ e
  | .ok ms => renderMatches ms

/-- The count branch of `execute_query` (source lines 135-139). -/
def countBranch (c : Collection) (query_obj : Json) : Except String String :=
  ebind (pyDictGet query_obj "filter" (.obj [])) fun filter_query =>
  ebind (c.count_documents filter_query) fun count =>
  .ok ("Found " ++ toString count ++ " records")

/-- The aggregation branch of `execute_query` (source lines 141-144). -/
def aggBranch (c : Collection) (query_obj : Json) : Except String String :=
  ebind (pyGetItem query_obj "pipeline") fun pl =>
  ebind (c.aggregate pl) fun result =>
  .ok (dumpsVal 0 (.arr result))

/-- The default find branch of `execute_query` (source lines 146-177). -/
def findBranch (c : Collection) (query_obj : Json) : Except String String :=
  ebind (pyDictGet query_obj "filter" (.obj [])) fun filter_query =>
  ebind (pyDictGet query_obj "fields" .null) fun fields =>
  ebind (projectionOf fields) fun projection =>
  ebind (c.find filter_query projection) fun found =>
  .ok (renderMatches found)

/-- The structural dispatch of `execute_query` on the decoded query object:
count first (`"operation" in query_obj and query_obj["operation"] ==
"count"`, with Python's short-circuit evaluation), then pipeline presence,
then the default find shape. -/
def dispatchQuery (c : Collection) (query_obj : Json) : Except String String :=
  ebind (pyIn "operation" query_obj) fun opMember =>
  ebind (if opMember then
           ebind (pyGetItem query_obj "operation") fun v => .ok (pyEqStr v "count")
         else .ok false) fun isCount =>
  if isCount then countBranch c query_obj
  else
    ebind (pyIn "pipeline" query_obj) fun plMember =>
    if plMember then aggBranch c query_obj
    else findBranch c query_obj

/-- The body of the `try` block of `execute_query`: decode the query string,
then dispatch.  Any raised exception is the `error` case. -/
def executeQueryEither (c : Collection) (query : String) : Except String String :=
  ebind (jsonParse query) (dispatchQuery c)

/-- `execute_query(collection, query)` (source lines 127-181): the `except`
handler turns any exception into the formatted error string, which entirely
replaces the result. -/
def execute_query (c : Collection) (query : String) : String :=
  match executeQueryEither c query with
  | .ok s => s
  | .error e => "Error processing query: " ++ e

/-- Case-insensitivity flag of a `$options` string. -/
def regexOptsCI (opts : String) : Bool := opts.toList.any (· == 'i')

/-- Lowercase a character list. -/
def lcList (l : List Char) : List Char := l.map Char.toLower

/-- Model of MongoDB `$regex` matching against a field value, for patterns
without regex metacharacters (plain substring search, case-insensitive when
`$options` contains `i`) — the only kind of pattern the program's prompt
instructs the model to produce.  Non-string field values never match. -/
def regexLikeMatch (pat opts : String) (dv : Option Json) : Bool :=
  match dv with
  | some (.str s) =>
      if regexOptsCI opts then occurs (lcList pat.toList) (lcList s.toList)
      else occurs pat.toList s.toList
  | _ => false

/-- Model of one filter condition `\x7bkey: cond\x7d` against a document: an
operator object is interpreted ($regex with optional $options), any other
value is an equality match; a missing field equals only a null condition. -/
def matchCond (d : Doc) (key : String) (cond : Json) : Except String Bool :=
  match cond with
  | .obj [("$regex", .str pat)] => .ok (regexLikeMatch pat "" (d.lookup key))
  | .obj [("$regex", .str pat), ("$options", .str opts)] =>
      .ok (regexLikeMatch pat opts (d.lookup key))
  | .obj [("$options", .str opts), ("$regex", .str pat)] =>
      .ok (regexLikeMatch pat opts (d.lookup key))
  | .obj (_ :: _) => .error "OperationFailure: unrecognized filter operator"
  | v =>
      .ok (match d.lookup key with
           | some w => jsonBeq w v
           | none => jsonBeq v .null)

/-- All conditions of a filter document hold of `d`. -/
def condsHold : List (String × Json) → Doc → Except String Bool
  | [], _ => .ok true
  | (k, c) :: rest, d =>
      ebind (matchCond d k c) fun b =>
      if b then condsHold rest d else .ok false

/-- Model of MongoDB filter matching: a filter must be a document; the empty
filter matches every document. -/
def matchesFilter (filter : Json) (d : Doc) : Except String Bool :=
  match filter with
  | .obj conds => condsHold conds d
  | _ => .error "OperationFailure: filter must be a document"

/-- Model of `count_documents`: the number of stored documents matching. -/
def countMatching (filter : Json) : List Doc → Except String Nat
  | [] => .ok 0
  | d :: ds =>
      ebind (matchesFilter filter d) fun b =>
      ebind (countMatching filter ds) fun n =>
      .ok (if b then n + 1 else n)

/-- The stored documents matching a filter, in order. -/
def filterMatching (filter : Json) : List Doc → Except String (List Doc)
  | [] => .ok []
  | d :: ds =>
      ebind (matchesFilter filter d) fun b =>
      ebind (filterMatching filter ds) fun rest =>
      .ok (if b then d :: rest else rest)

/-- Model of MongoDB inclusion projection: with no projection the document
is returned whole; with a projection document, the fields projected to a
truthy value are kept, and the identity field is always included (Mongo
returns `_id` unless it is explicitly excluded). -/
def projectDoc (proj : Option Json) (d : Doc) : Except String Doc :=
  match proj with
  | none => .ok d
  | some (.obj pf) =>
      .ok (d.filter fun kv =>
        kv.1 == "_id" ||
          (match pf.lookup kv.1 with
           | some v => pyTruthy v
           | none => false))
  | some _ => .error "TypeError: projection must be a document"

/-- Apply the projection to every matching document. -/
def projectDocs (proj : Option Json) : List Doc → Except String (List Doc)
  | [] => .ok []
  | d :: ds =>
      ebind (projectDoc proj d) fun pd =>
      ebind (projectDocs proj ds) fun rest =>
      .ok (pd :: rest)

/-- Model of `find(filter, projection)` over a stored document list. -/
def findModel (docs : List Doc) (filter : Json) (proj : Option Json) :
    Except String (List Doc) :=
  ebind (filterMatching filter docs) fun ms => projectDocs proj ms

/-- The numeric value of a field, when present and numeric. -/
def numLookup (fname : String) (d : Doc) : Option Int :=
  match d.lookup fname with
  | some (.num n) => some n
  | _ => none

/-- Model of `aggregate` for the one pipeline shape the program's prompt
documents: `[\x7b"$group": \x7b"_id": null, "<name>": \x7b"$avg":
"$<field>"\x7d\x7d\x7d]`.  On a nonempty collection the single result group
carries `"_id": null` — the identity field appears in aggregation results.
`$avg` ignores missing and non-numeric fields and is modelled with integer
division (witnesses use exactly divisible data; Mongo returns doubles).
Any other pipeline is the spec's unsupported-pipeline-stage failure. -/
def modelAggregate (docs : List Doc) (pl : Json) : Except String (List Json) :=
  match pl with
  | .arr [.obj [("$group", .obj [("_id", .null), (outName, .obj [("$avg", .str fieldRef)])])]] =>
      match fieldRef.toList with
      | '$' :: fchars =>
          if docs.isEmpty then .ok []
          else
            let vals := docs.filterMap (numLookup (String.mk fchars))
            let avg : Json :=
              if vals.isEmpty then .null
              else .num ((vals.foldl (fun a b => a + b) 0) / (vals.length : Int))
            .ok [.obj [("_id", .null), (outName, avg)]]
      | _ => .error "OperationFailure: Unsupported pipeline stage"
  | _ => .error "OperationFailure: Unsupported pipeline stage"

/-- A list-backed instance of the collection collaborator. -/
def modelCollection (docs : List Doc) : Collection where
  count_documents := fun f => countMatching f docs
  find := findModel docs
  aggregate := modelAggregate docs

/-- Python `str.strip()` on a character list. -/
def pyStripL (l : List Char) : List Char :=
  ((l.dropWhile isPyWs).reverse.dropWhile isPyWs).reverse

/-- Python `str.strip()`. -/
def pyStrip (s : String) : String := String.mk (pyStripL s.toList)

/-- Python `str.split(sep)` for a nonempty separator: scan left to right,
cutting at every (non-overlapping, leftmost) occurrence of `sep`.  The
`fuel` argument makes the recursion structural; callers pass more fuel than
the input length, which suffices because every recursive step first
consumes at least one character. -/
def pySplitAux (sep : List Char) : Nat → List Char → List Char → List (List Char)
  | _, acc, [] => [acc.reverse]
  | 0, acc, c :: cs => [acc.reverse ++ c :: cs]
  | fuel + 1, acc, c :: cs =>
      if begins sep (c :: cs) then
        acc.reverse :: pySplitAux sep fuel [] (List.drop (sep.length - 1) cs)
      else pySplitAux sep fuel (c :: acc) cs

/-- Python `str.split(sep)`. -/
def pySplit (sep s : String) : List String :=
  (pySplitAux sep.toList (s.length + 1) [] s.toList).map String.mk

/-- Python `str.replace(pat, rep)` on character lists: every
non-overlapping, leftmost occurrence is replaced.  Fueled like
`pySplitAux`. -/
def pyReplaceAux (pat rep : List Char) : Nat → List Char → List Char
  | _, [] => []
  | 0, c :: cs => c :: cs
  | fuel + 1, c :: cs =>
      if begins pat (c :: cs) then
        rep ++ pyReplaceAux pat rep fuel (List.drop (pat.length - 1) cs)
      else c :: pyReplaceAux pat rep fuel cs

/-- Python `str.replace(pat, rep)`. -/
def pyReplace (pat rep s : String) : String :=
  String.mk (pyReplaceAux pat.toList rep.toList (s.length + 1) s.toList)

/-- The response split of `formulate_query` (source lines 86-92):
`parts = content.split("QUERY:")` and the two-part branch is taken only when
the split yields exactly two parts; otherwise the placeholder explanation is
used and the whole content is the candidate query. -/
def splitResponse (content : String) : String × String :=
  if (pySplit "QUERY:" content).length == 2 then
    (pyStrip (pyReplace "THINKING:" ""
        ((pySplit "QUERY:" content).getD 0 "")),
     pyStrip ((pySplit "QUERY:" content).getD 1 ""))
  else ("No explicit thinking provided", content)

/-- Python `str.split("\n")`: lines of a string, the empty string giving one
empty line. -/
def splitLines : List Char → List (List Char)
  | [] => [[]]
  | c :: cs =>
      if c == '\n' then [] :: splitLines cs
      else
        match splitLines cs with
        | [] => [[c]]
        | l :: ls => (c :: l) :: ls

/-- Python `"\n".join(...)` on character lists. -/
def joinNL : List (List Char) → List Char
  | [] => []
  | [l] => l
  | l :: m :: ls => l ++ '\n' :: joinNL (m :: ls)

/-- The markdown code-fence marker. -/
def fence : List Char := [btick, btick, btick]

/-- The query-cleaning rules of `formulate_query` (source lines 99-103):
strip the first and last line of a fenced block, then strip a leading
`json` language tag. -/
def cleanQueryL (q : List Char) : List Char :=
  let q1 :=
    if begins fence q && begins fence q.reverse then
      joinNL (((splitLines q).drop 1).dropLast)
    else q
  if begins ['j', 's', 'o', 'n'] q1 then pyStripL (q1.drop 4) else q1

/-- The query-cleaning rules on strings. -/
def cleanQuery (q : String) : String := String.mk (cleanQueryL q.toList)

/-- The pure text-processing core of `QueryAgent.formulate_query` (source
lines 83-103): strip the raw model response, split it into thinking and
candidate query, clean the candidate.  Returns the explanation and the
cleaned query text the caller goes on to execute. -/
def formulate_query (rawContent : String) : String × String :=
  let content := pyStrip rawContent
  let tq := splitResponse content
  (tq.1, cleanQuery tq.2)

/-- The field-description dict built by `QueryAgent.__init__` (source lines
14-17): `\x7bfield: f"Example value: \x7bsample_data[field]\x7d" for field in
available_fields\x7d`.  Python's `sample_data[field]` raises `KeyError` when
a listed field is missing from the sample record, so the whole constructor
fails; `available_fields` comes from `df.columns` and has no duplicates. -/
def buildFieldDescriptions (available_fields : List String) (sample_data : Doc) :
    Except String (List (String × String)) :=
  match available_fields with
  | [] => .ok []
  | f :: rest =>
      match sample_data.lookup f with
      | some v =>
          match buildFieldDescriptions rest sample_data with
          | .ok tail => .ok ((f, "Example value: " ++ pyStr v) :: tail)
          | .error e => .error e
      | none => .error ("KeyError: " ++ squote ++ f ++ squote)

/-- `QueryAgent._format_field_descriptions` (source lines 68-70): one
`- <field>: <description>` line per field, `"\n".join`-ed. -/
def formatFieldDescriptions (catalog : List (String × String)) : String :=
  String.mk (joinNL (catalog.map fun p => ("- " ++ p.1 ++ ": " ++ p.2).toList))

/-- The static prompt text above the interpolated field list (source lines
22-24, rendered). -/
def promptHead : List String :=
  ["You are an intelligent assistant that helps users find information in a CSV dataset by converting natural language questions into MongoDB queries.",
   "",
   "Available fields and example values:"]

/-- The static prompt text below the interpolated field list (source lines
26-66, rendered: the doubled braces of the f-string render as single
braces). -/
def promptTail : List String :=
  ["",
   "Your task is to:",
   "1. Understand the user" ++ squote ++ "s natural language question",
   "2. Figure out their true intent (what information they want)",
   "3. Create the appropriate MongoDB query using the available fields",
   "",
   "Query patterns:",
   "1. Finding records by field value:",
   "   \x7b\"filter\": \x7b\"field_name\": \x7b\"$regex\": \"value\", \"$options\": \"i\"\x7d\x7d, \"fields\": [\"relevant_fields\"]\x7d",
   "",
   "2. Counting records:",
   "   \x7b\"filter\": \x7b\"field_name\": \x7b\"$regex\": \"value\", \"$options\": \"i\"\x7d\x7d, \"operation\": \"count\"\x7d",
   "",
   "3. Computing averages:",
   "   \x7b\"pipeline\": [\x7b\"$group\": \x7b\"_id\": null, \"average\": \x7b\"$avg\": \"$field_name\"\x7d\x7d\x7d]\x7d",
   "",
   "Remember:",
   "1. Use exact field names from the available fields list",
   "2. Always use case-insensitive regex for text searches",
   "3. Include relevant fields in the response based on the question",
   "4. Return only the fields that would help answer the question",
   "5. Use proper MongoDB query operators",
   "",
   "Think step by step:",
   "1. What information is the user looking for?",
   "2. Which fields in the data would have this information?",
   "3. What" ++ squote ++ "s the best way to query these fields?",
   "4. What fields should be included in the response?",
   "",
   "Guidelines:",
   "- For text searches, use case-insensitive regex matching",
   "- For numeric fields, use appropriate comparison operators",
   "- Include fields that provide context to the answer",
   "- Use the exact field names shown above",
   "- Structure queries based on the patterns shown above",
   "",
   "First, explain your thinking step by step.",
   "Then output the MongoDB query object as valid JSON.",
   "Format your response as:",
   "THINKING: your step-by-step analysis",
   "QUERY: the JSON query object"]

/-- The rendered system prompt of `QueryAgent.__init__` (source lines
22-66): static text with the field-description block interpolated. -/
def systemPrompt (catalog : List (String × String)) : String :=
  String.intercalate "\n" promptHead ++ "\n" ++ formatFieldDescriptions catalog ++
  "\n" ++ String.intercalate "\n" promptTail

/-- The lines of a string, as strings. -/
def splitLinesStr (s : String) : List String := (splitLines s.toList).map String.mk

/-- A rendered field-description line: a `- ` bullet carrying an
`: Example value: ` description. -/
def isFieldDescLine (l : String) : Bool :=
  begins ("- ".toList) l.toList && occurs (": Example value: ".toList) l.toList

/-- A query-shape example line of the prompt: its first non-space character
opens a JSON object literal. -/
def isShapeLine (l : String) : Bool :=
  match l.toList.dropWhile (· == ' ') with
  | c :: _ => c == lbrace
  | [] => false

/-- Is the decoded query value a JSON object? -/
def isObj : Json → Bool
  | .obj _ => true
  | _ => false

/-- The count-branch guard of the dispatch, as a predicate on a decoded
object's members: the `operation` key is present and maps to the string
`"count"`. -/
def opIsCount (fs : List (String × Json)) : Bool :=
  match fs.lookup "operation" with
  | some v => pyEqStr v "count"
  | none => false

/-- Wrap a text in a triple-backtick fenced block, the markdown artifact
the cleaning rules are designed to remove (spec section 4.4). -/
def wrapFence (s : String) : String :=
  String.mk fence ++ "\n" ++ s ++ "\n" ++ String.mk fence

/-- The first occurrence of `sep` in a list, as the decomposition
`before, after` around it — the reference notion of "split on the first
literal occurrence of the separator" used by the Response Parser claim. -/
def splitFirst (sep : List Char) : List Char → Option (List Char × List Char)
  | [] => if begins sep [] then some ([], []) else none
  | c :: cs =>
      if begins sep (c :: cs) then some ([], (c :: cs).drop sep.length)
      else (splitFirst sep cs).map fun pq => (c :: pq.1, pq.2)

/-! ### General lemmas about the embedded string primitives -/

theorem begins_append_self (p t : List Char) : begins p (p ++ t) = true := by
  induction p with
  | nil => rfl
  | cons c cs ih => simp [begins, ih]

theorem occurs_append_mid (pat a b : List Char) :
    occurs pat (a ++ (pat ++ b)) = true := by
  induction a with
  | nil =>
      cases pat with
      | nil => cases b <;> simp [occurs, begins]
      | cons p ps =>
          show (begins (p :: ps) ((p :: ps) ++ b) || occurs (p :: ps) (ps ++ b)) = true
          rw [begins_append_self]
          simp
  | cons c cs ih =>
      show (begins pat (c :: (cs ++ (pat ++ b))) || occurs pat (cs ++ (pat ++ b))) = true
      rw [ih]
      simp

theorem splitLines_ne_nil (l : List Char) : splitLines l ≠ [] := by
  induction l with
  | nil => simp [splitLines]
  | cons c cs ih =>
      simp only [splitLines]
      split
      · simp
      · split
        · simp
        · simp

theorem splitLines_append (a b : List Char) :
    splitLines (a ++ '\n' :: b) = splitLines a ++ splitLines b := by
  induction a with
  | nil => simp [splitLines]
  | cons c cs ih =>
      show splitLines (c :: (cs ++ '\n' :: b)) = splitLines (c :: cs) ++ splitLines b
      by_cases h : c = '\n'
      · simp [splitLines, h, ih]
      · simp only [splitLines, if_neg h]
        rw [ih]
        cases hs : splitLines cs with
        | nil => exact absurd hs (splitLines_ne_nil cs)
        | cons x xs => simp [hs, h]

theorem splitLines_no_newline (l : List Char) (h : '\n' ∉ l) :
    splitLines l = [l] := by
  induction l with
  | nil => rfl
  | cons c cs ih =>
      simp only [List.mem_cons, not_or] at h
      simp [splitLines, Ne.symm h.1, ih h.2]

theorem joinNL_splitLines (l : List Char) : joinNL (splitLines l) = l := by
  induction l with
  | nil => rfl
  | cons c cs ih =>
      by_cases h : c = '\n'
      · subst h
        simp only [splitLines, if_pos rfl]
        cases hs : splitLines cs with
        | nil => exact absurd hs (splitLines_ne_nil cs)
        | cons x xs =>
            rw [hs] at ih
            simp [joinNL, ih]
      · simp only [splitLines, if_neg h]
        cases hs : splitLines cs with
        | nil => exact absurd hs (splitLines_ne_nil cs)
        | cons x xs =>
            rw [hs] at ih
            cases xs with
            | nil => simp_all [joinNL]
            | cons y ys => simp_all [joinNL]

theorem toList_append (a b : String) : (a ++ b).toList = a.toList ++ b.toList := by
  cases a; cases b; rfl

theorem toList_mk (l : List Char) : (String.mk l).toList = l := rfl

/-! ### C1 and C10: totality and error recovery of the executor -/

/-- C1: for every input string and collection behaviour, `execute_query`
either returns the normal result of the try-block body, or returns exactly
`"Error processing query: <message>"` with the raised message — the error
string entirely replaces the result.  In particular (second conjunct) a
malformed query string always produces the formatted error string.  The
embedding is a total function, so no unhandled fault escapes. -/
theorem executor_error_recovery :
    (∀ (c : Collection) (q : String),
        (∃ s, executeQueryEither c q = .ok s ∧ execute_query c q = s) ∨
        (∃ e, executeQueryEither c q = .error e ∧
            execute_query c q = "Error processing query: " ++ e)) ∧
    (∀ (c : Collection) (q : String) (e : String),
        jsonParse q = .error e →
        execute_query c q = "Error processing query: " ++ e) := by
  constructor
  · intro c q
    cases h : executeQueryEither c q with
    | ok s => exact .inl ⟨s, rfl, by simp [execute_query, h]⟩
    | error e => exact .inr ⟨e, rfl, by simp [execute_query, h]⟩
  · intro c q e h
    simp [execute_query, executeQueryEither, ebind, h]

/-- Witness for C1 at a concrete malformed input. -/
theorem executor_error_recovery_witness :
    execute_query (modelCollection []) "not json" =
      "Error processing query: Expecting value" :=
  executor_error_recovery.2 (modelCollection []) "not json" "Expecting value" rfl

theorem dispatch_nonobject_errors (c : Collection) (v : Json)
    (h : isObj v = false) : ∃ e, dispatchQuery c v = .error e := by
  cases v with
  | obj fs => simp [isObj] at h
  | null => exact ⟨_, rfl⟩
  | bool b => exact ⟨_, rfl⟩
  | num n => exact ⟨_, rfl⟩
  | str s =>
      simp only [dispatchQuery, pyIn, ebind, pyGetItem, aggBranch, findBranch,
        pyDictGet]
      repeat' split
      all_goals exact ⟨_, rfl⟩
  | arr xs =>
      simp only [dispatchQuery, pyIn, ebind, pyGetItem, aggBranch, findBranch,
        pyDictGet]
      repeat' split
      all_goals exact ⟨_, rfl⟩

/-- C10: an input that decodes to valid JSON which is not an object (a
list, number, string, boolean, or null) still yields the formatted error
string: the structural dispatch raises a `TypeError`/`AttributeError`
inside the try block and the handler recovers it. -/
theorem nonobject_json_recovered (c : Collection) (q : String) (v : Json)
    (hq : jsonParse q = .ok v) (hv : isObj v = false) :
    ∃ e, execute_query c q = "Error processing query: " ++ e := by
  obtain ⟨e, he⟩ := dispatch_nonobject_errors c v hv
  exact ⟨e, by simp [execute_query, executeQueryEither, ebind, hq, he]⟩

/-- Witness for C10 at the concrete non-object input `[1, 2]`. -/
theorem nonobject_json_recovered_witness :
    ∃ e, execute_query (modelCollection []) "[1, 2]" =
      "Error processing query: " ++ e :=
  nonobject_json_recovered (modelCollection [])
    "[1, 2]" (.arr [.num 1, .num 2]) rfl rfl

/-! ### Dispatch lemmas for decoded object queries -/

theorem dispatch_count (c : Collection) (fs : List (String × Json))
    (h : fs.lookup "operation" = some (.str "count")) :
    dispatchQuery c (.obj fs) = countBranch c (.obj fs) := by
  simp [dispatchQuery, pyIn, ebind, h, pyGetItem, pyEqStr]

theorem dispatch_find (c : Collection) (fs : List (String × Json))
    (hop : opIsCount fs = false) (hpl : fs.lookup "pipeline" = none) :
    dispatchQuery c (.obj fs) = findBranch c (.obj fs) := by
  cases hlo : fs.lookup "operation" with
  | none => simp [dispatchQuery, pyIn, ebind, hlo, hpl]
  | some v =>
      have hv : pyEqStr v "count" = false := by
        simpa [opIsCount, hlo] using hop
      simp [dispatchQuery, pyIn, ebind, hlo, pyGetItem, hv, hpl]

/-! ### C5: the count shape -/

/-- C5: a decoded query object whose `operation` member is the string
`"count"` takes the count branch: the filter is extracted (defaulting to
the empty, match-all object when absent), the collection's document count
over it is taken, and the result is exactly `"Found <N> records"`. -/
theorem count_query_result (c : Collection) (q : String)
    (fs : List (String × Json)) (n : Nat)
    (hq : jsonParse q = .ok (.obj fs))
    (hop : fs.lookup "operation" = some (.str "count"))
    (hcount : c.count_documents ((fs.lookup "filter").getD (.obj [])) = .ok n) :
    execute_query c q = "Found " ++ toString n ++ " records" := by
  have hd := dispatch_count c fs hop
  simp [execute_query, executeQueryEither, ebind, hq, hd, countBranch,
    pyDictGet, hcount]

/-- Witness for C5: the spec's concrete case, an empty-filter count over a
five-document collection returning `"Found 5 records"`. -/
theorem count_query_result_witness :
    execute_query (modelCollection [[("a", Json.num 1)], [("a", Json.num 2)],
        [("a", Json.num 3)], [("a", Json.num 4)], [("a", Json.num 5)]])
      "\x7b\"filter\": \x7b\x7d, \"operation\": \"count\"\x7d" =
      "Found 5 records" := by
  have h := count_query_result
    (modelCollection [[("a", Json.num 1)], [("a", Json.num 2)],
      [("a", Json.num 3)], [("a", Json.num 4)], [("a", Json.num 5)]])
    "\x7b\"filter\": \x7b\x7d, \"operation\": \"count\"\x7d"
    [("filter", Json.obj []), ("operation", Json.str "count")] 5 rfl rfl rfl
  exact h.trans rfl

/-! ### C7: the zero-match find report -/

/-- C7: a find-shape query (count guard false, no `pipeline` member) whose
filter matches zero documents returns exactly the literal
`"No matching records found"`. -/
theorem zero_matches_literal (c : Collection) (q : String)
    (fs : List (String × Json)) (popt : Option Json)
    (hq : jsonParse q = .ok (.obj fs))
    (hop : opIsCount fs = false)
    (hpl : fs.lookup "pipeline" = none)
    (hproj : projectionOf ((fs.lookup "fields").getD .null) = .ok popt)
    (hfind : c.find ((fs.lookup "filter").getD (.obj [])) popt = .ok []) :
    execute_query c q = "No matching records found" := by
  have hd := dispatch_find c fs hop hpl
  simp [execute_query, executeQueryEither, ebind, hq, hd, findBranch,
    pyDictGet, hproj, hfind, renderMatches]

/-- Witness for C7: the empty query over an empty collection. -/
theorem zero_matches_literal_witness :
    execute_query (modelCollection []) "\x7b\x7d" =
      "No matching records found" :=
  zero_matches_literal (modelCollection []) "\x7b\x7d" [] none
    rfl rfl rfl rfl rfl

/-! ### C4: identity-field stripping (corrected) -/

/-- C4 counterexample: the claim says the internal identity field is never
present in any displayed result, across all query shapes.  The aggregation
branch serializes the raw result list unmodified, and the very pipeline the
prompt documents (`$group` with `"_id": null`) produces groups carrying an
`_id` member — so the rendered report contains the identity field. -/
theorem aggregation_reveals_id :
    execute_query (modelCollection [[("v", Json.num 2)], [("v", Json.num 4)]])
      "\x7b\"pipeline\": [\x7b\"$group\": \x7b\"_id\": null, \"average\": \x7b\"$avg\": \"$v\"\x7d\x7d\x7d]\x7d" =
      "[\n  \x7b\n    \"_id\": null,\n    \"average\": 3\n  \x7d\n]" ∧
    occurs ("_id".toList)
      (execute_query (modelCollection [[("v", Json.num 2)], [("v", Json.num 4)]])
        "\x7b\"pipeline\": [\x7b\"$group\": \x7b\"_id\": null, \"average\": \x7b\"$avg\": \"$v\"\x7d\x7d\x7d]\x7d").toList
      = true :=
  ⟨rfl, rfl⟩

/-- C4 (amended): in find-shape reports the identity field is always
stripped before display — the report is exactly the records with `_id`
removed, and no rendered record retains an `_id` member.  (The count branch
renders no records; the aggregation branch serializes raw results, which
can contain the identity field, as the counterexample shows.) -/
theorem find_reports_strip_id (c : Collection) (q : String)
    (fs : List (String × Json)) (popt : Option Json) (ds : List Doc)
    (hq : jsonParse q = .ok (.obj fs))
    (hop : opIsCount fs = false)
    (hpl : fs.lookup "pipeline" = none)
    (hproj : projectionOf ((fs.lookup "fields").getD .null) = .ok popt)
    (hfind : c.find ((fs.lookup "filter").getD (.obj [])) popt = .ok ds)
    (hne : ds ≠ []) :
    execute_query c q =
      "Found " ++ toString ds.length ++ " matches:\n\n" ++
        String.intercalate "\n\n" (ds.map renderRecord) ∧
    ∀ d ∈ ds, ∀ kv ∈ stripId d, kv.1 ≠ "_id" := by
  constructor
  · have hd := dispatch_find c fs hop hpl
    cases ds with
    | nil => exact absurd rfl hne
    | cons d rest =>
        simp [execute_query, executeQueryEither, ebind, hq, hd, findBranch,
          pyDictGet, hproj, hfind, renderMatches]
  · intro d _ kv hkv
    have h := (List.mem_filter.mp hkv).2
    simpa [bne] using h

/-- Witness for C4 (amended): a stored document carrying `_id` is rendered
without it. -/
theorem find_reports_strip_id_witness :
    execute_query (modelCollection
        [[("_id", Json.num 0), ("name", Json.str "Alice"), ("age", Json.num 30)]])
      "\x7b\x7d" = "Found 1 matches:\n\nRecord:\n  name: Alice\n  age: 30" := by
  have h := (find_reports_strip_id
    (modelCollection
      [[("_id", Json.num 0), ("name", Json.str "Alice"), ("age", Json.num 30)]])
    "\x7b\x7d" [] none
    [[("_id", Json.num 0), ("name", Json.str "Alice"), ("age", Json.num 30)]]
    rfl rfl rfl rfl rfl (by simp)).1
  exact h.trans rfl

/-! ### C6: the fields projection (corrected) -/

/-- C6 counterexample: the claim says a present `fields` key — including an
empty list — yields a projection selecting exactly the listed fields.  But
`projection = \x7b...\x7d if fields else None` treats the empty list as
falsy: no projection is built, the find runs unprojected, and a record's
field not in the (empty) list is displayed. -/
theorem empty_fields_no_projection :
    projectionOf (Json.arr []) = .ok none ∧
    execute_query (modelCollection [[("a", Json.num 1)]])
      "\x7b\"filter\": \x7b\x7d, \"fields\": []\x7d" =
      "Found 1 matches:\n\nRecord:\n  a: 1" :=
  ⟨rfl, rfl⟩

theorem lookup_map_pair_isSome {ns : List String} {k : String}
    (h : ((ns.map fun n => (n, Json.num 1)).lookup k).isSome = true) :
    k ∈ ns := by
  induction ns with
  | nil => simp [List.lookup] at h
  | cons n rest ih =>
      by_cases hk : k = n
      · simp [hk]
      · have hb : (k == n) = false := by simpa using hk
        simp only [List.map_cons, List.lookup, hb] at h
        exact List.mem_cons_of_mem _ (ih h)

theorem projectionFromList_nodup :
    ∀ (ns : List String) (acc : List (String × Json)),
      (∀ n ∈ ns, (acc.all fun kv => kv.1 != n) = true) → ns.Nodup →
      projectionFromList acc (ns.map Json.str) =
        .ok (acc ++ ns.map fun n => (n, Json.num 1)) := by
  intro ns
  induction ns with
  | nil => intro acc _ _; simp [projectionFromList]
  | cons n rest ih =>
      intro acc hacc hnd
      have h1 := hacc n (List.mem_cons_self n rest)
      have hnotin : (acc.any fun kv => kv.1 == n) = false := by
        apply eq_false_of_ne_true
        intro hany
        obtain ⟨kv, hmem, hkv⟩ := List.any_eq_true.mp hany
        have := List.all_eq_true.mp h1 kv hmem
        simp only [bne] at this
        rw [hkv] at this
        simp at this
      simp only [List.map_cons, projectionFromList, objUpsert, hnotin,
        Bool.false_eq_true, if_false]
      rw [ih (acc ++ [(n, Json.num 1)]) ?hall hnd.of_cons]
      · simp
      case hall =>
        intro m hm
        rw [List.all_append]
        have hacc' := hacc m (List.mem_cons_of_mem n hm)
        have hnm : n ≠ m := fun h => (List.nodup_cons.mp hnd).1 (h ▸ hm)
        simp [hacc', hnm]

/-- C6 (amended): when the `fields` key holds a nonempty list of distinct
field names, the dict comprehension builds the projection selecting exactly
those fields, the find runs with it, and the whole observable result is the
rendering of that projected find; under the model collection's projection
semantics every displayed record field is one of the listed names.  A
missing, empty, or otherwise falsy `fields` value yields no projection
(see the counterexample). -/
theorem nonempty_fields_projection (c : Collection) (q : String)
    (fs : List (String × Json)) (ns : List String)
    (hq : jsonParse q = .ok (.obj fs))
    (hop : opIsCount fs = false)
    (hpl : fs.lookup "pipeline" = none)
    (hfl : fs.lookup "fields" = some (.arr (ns.map Json.str)))
    (hne : ns ≠ []) (hnd : ns.Nodup) :
    buildProjection (.arr (ns.map Json.str)) =
      .ok (.obj (ns.map fun n => (n, Json.num 1))) ∧
    execute_query c q =
      renderFindOutcome (c.find ((fs.lookup "filter").getD (.obj []))
        (some (.obj (ns.map fun n => (n, Json.num 1))))) ∧
    (∀ (d pd : Doc),
        projectDoc (some (.obj (ns.map fun n => (n, Json.num 1)))) d = .ok pd →
        ∀ kv ∈ stripId pd, kv.1 ∈ ns) := by
  have hbp : buildProjection (.arr (ns.map Json.str)) =
      .ok (.obj (ns.map fun n => (n, Json.num 1))) := by
    have h := projectionFromList_nodup ns [] (by simp) hnd
    simp [buildProjection, h]
  refine ⟨hbp, ?_, ?_⟩
  · have hd := dispatch_find c fs hop hpl
    have htr : pyTruthy (Json.arr (ns.map Json.str)) = true := by
      cases ns with
      | nil => exact absurd rfl hne
      | cons a l => simp [pyTruthy]
    have hproj : projectionOf ((fs.lookup "fields").getD .null) =
        .ok (some (.obj (ns.map fun n => (n, Json.num 1)))) := by
      simp [hfl, projectionOf, htr, hbp]
    cases hfind : c.find ((fs.lookup "filter").getD (.obj []))
        (some (.obj (ns.map fun n => (n, Json.num 1)))) with
    | ok ms =>
        simp [execute_query, executeQueryEither, ebind, hq, hd, findBranch,
          pyDictGet, hproj, hfind, renderFindOutcome]
    | error e =>
        simp [execute_query, executeQueryEither, ebind, hq, hd, findBranch,
          pyDictGet, hproj, hfind, renderFindOutcome]
  · intro d pd hpd kv hkv
    have hpd2 : pd = d.filter (fun kv => kv.1 == "_id" ||
        (match (ns.map fun n => (n, Json.num 1)).lookup kv.1 with
         | some v => pyTruthy v
         | none => false)) := by
      simpa [projectDoc] using hpd.symm
    subst hpd2
    have hg := List.mem_filter.mp hkv
    have hf := List.mem_filter.mp hg.1
    have hid : (kv.1 == "_id") = false := by
      simpa [bne] using hg.2
    have hlk : (match (ns.map fun n => (n, Json.num 1)).lookup kv.1 with
                | some v => pyTruthy v
                | none => false) = true := by
      have h := hf.2
      rw [hid] at h
      simpa using h
    cases hcase : (ns.map fun n => (n, Json.num 1)).lookup kv.1 with
    | none => rw [hcase] at hlk; simp at hlk
    | some v => exact lookup_map_pair_isSome (by simp [hcase])

/-- Witness for C6 (amended): the spec's projection example — only the
listed `name` field is displayed, and the identity field never appears. -/
theorem nonempty_fields_projection_witness :
    execute_query (modelCollection
        [[("_id", Json.num 0), ("name", Json.str "Alice"), ("age", Json.num 30)]])
      "\x7b\"filter\": \x7b\"name\": \x7b\"$regex\": \"a\", \"$options\": \"i\"\x7d\x7d, \"fields\": [\"name\"]\x7d" =
      "Found 1 matches:\n\nRecord:\n  name: Alice" := by
  have h := (nonempty_fields_projection
    (modelCollection
      [[("_id", Json.num 0), ("name", Json.str "Alice"), ("age", Json.num 30)]])
    "\x7b\"filter\": \x7b\"name\": \x7b\"$regex\": \"a\", \"$options\": \"i\"\x7d\x7d, \"fields\": [\"name\"]\x7d"
    [("filter", Json.obj [("name",
        Json.obj [("$regex", Json.str "a"), ("$options", Json.str "i")])]),
     ("fields", Json.arr [Json.str "name"])]
    ["name"] rfl rfl rfl rfl (by simp) (by simp)).2.1
  exact h.trans rfl

/-! ### C3: the schema summarizer (corrected) -/

/-- C3 counterexample: the claim says a listed field missing from the
representative record has its description omitted with no fatal error.
But `sample_data[field]` raises `KeyError`, so the catalog construction
fails outright — nothing is omitted and no catalog is produced. -/
theorem missing_field_keyerror :
    (buildFieldDescriptions ["a"] []).isOk = false ∧
    buildFieldDescriptions ["a"] [] =
      .error ("KeyError: " ++ squote ++ "a" ++ squote) :=
  ⟨rfl, rfl⟩

/-- C3 (amended): when every listed field is present in the representative
record, the summarizer pairs each field, in order, with
`"Example value: <value>"`; when any listed field is missing, the
construction fails with a fatal `KeyError` instead of omitting the entry. -/
theorem field_catalog_behaviour :
    (∀ (fields : List String) (sample : Doc),
        (∀ f ∈ fields, (sample.lookup f).isSome = true) →
        buildFieldDescriptions fields sample =
          .ok (fields.map fun f =>
            (f, "Example value: " ++ pyStr ((sample.lookup f).getD .null)))) ∧
    (∀ (fields : List String) (sample : Doc) (f : String),
        f ∈ fields → sample.lookup f = none →
        (buildFieldDescriptions fields sample).isOk = false) := by
  constructor
  · intro fields sample hall
    induction fields with
    | nil => rfl
    | cons g rest ih =>
        have hg := hall g (List.mem_cons_self g rest)
        cases hlk : sample.lookup g with
        | none => rw [hlk] at hg; simp at hg
        | some v =>
            have ih2 := ih fun f hf => hall f (List.mem_cons_of_mem g hf)
            simp [buildFieldDescriptions, hlk, ih2]
  · intro fields sample f hf hnone
    induction fields with
    | nil => simp at hf
    | cons g rest ih =>
        rcases List.mem_cons.mp hf with rfl | hmem
        · simp [buildFieldDescriptions, hnone, Except.isOk, Except.toBool]
        · cases hlk : sample.lookup g with
          | none => simp [buildFieldDescriptions, hlk, Except.isOk, Except.toBool]
          | some v =>
              have := ih hmem
              simp only [buildFieldDescriptions, hlk]
              cases hb : buildFieldDescriptions rest sample with
              | ok tail =>
                  rw [hb] at this
                  simp [Except.isOk, Except.toBool] at this
              | error e => simp [Except.isOk, Except.toBool]

/-- Witness for C3 (amended), on a record containing the listed field. -/
theorem field_catalog_behaviour_witness :
    buildFieldDescriptions ["name"] [("name", Json.str "Al")] =
      .ok [("name", "Example value: Al")] := by
  have h := field_catalog_behaviour.1 ["name"] [("name", Json.str "Al")]
    (by simp)
  exact h.trans rfl

/-! ### C2: the response split (corrected) -/

theorem begins_append_of_begins (p : List Char) :
    ∀ (x t : List Char), begins p x = true → begins p (x ++ t) = true := by
  induction p with
  | nil => intro x t _; rfl
  | cons a ps ih =>
      intro x t h
      cases x with
      | nil => simp [begins] at h
      | cons c cs =>
          simp only [begins, Bool.and_eq_true] at h ⊢
          exact ⟨h.1, ih cs t h.2⟩

theorem begins_drop (sep : List Char) :
    ∀ (s : List Char), begins sep s = true → s = sep ++ s.drop sep.length := by
  induction sep with
  | nil => intro s _; simp
  | cons p ps ih =>
      intro s h
      cases s with
      | nil => simp [begins] at h
      | cons c cs =>
          simp only [begins, Bool.and_eq_true, beq_iff_eq] at h
          have h2 := ih cs h.2
          simp only [List.length_cons, List.drop_succ_cons, List.cons_append,
            h.1]
          exact congrArg _ h2

theorem splitFirst_none_iff (sep : List Char) :
    ∀ (s : List Char), splitFirst sep s = none ↔ occurs sep s = false := by
  intro s
  induction s with
  | nil =>
      by_cases hb : begins sep [] <;> simp [splitFirst, occurs, hb]
  | cons c cs ih =>
      by_cases hb : begins sep (c :: cs)
      · simp [splitFirst, occurs, hb]
      · simp [splitFirst, occurs, hb, Option.map_eq_none', ih]

theorem splitFirst_some_spec (sep : List Char) (hsep : sep ≠ []) :
    ∀ (s pre post : List Char), splitFirst sep s = some (pre, post) →
      s = pre ++ sep ++ post ∧ occurs sep pre = false := by
  intro s
  induction s with
  | nil =>
      intro pre post h
      cases sep with
      | nil => exact absurd rfl hsep
      | cons p ps => simp [splitFirst, begins] at h
  | cons c cs ih =>
      intro pre post h
      by_cases hb : begins sep (c :: cs)
      · rw [splitFirst, if_pos hb] at h
        obtain ⟨rfl, rfl⟩ : pre = [] ∧ List.drop sep.length (c :: cs) = post := by
          simpa using h
        refine ⟨by simpa using begins_drop sep (c :: cs) hb, ?_⟩
        cases sep with
        | nil => exact absurd rfl hsep
        | cons p ps => rfl
      · rw [splitFirst, if_neg hb] at h
        obtain ⟨pq, hcs, heq⟩ := Option.map_eq_some'.mp h
        obtain ⟨rfl, rfl⟩ : c :: pq.1 = pre ∧ pq.2 = post :=
          Prod.mk.injEq .. ▸ heq
        obtain ⟨hdec, hocc⟩ := ih pq.1 pq.2 hcs
        constructor
        · rw [hdec]; rfl
        · have hb2 : begins sep (c :: pq.1) = false := by
            apply eq_false_of_ne_true
            intro h1
            apply hb
            have h2 := begins_append_of_begins sep (c :: pq.1)
              (sep ++ pq.2) h1
            rw [hdec]
            simpa [List.append_assoc] using h2
          show (begins sep (c :: pq.1) || occurs sep pq.1) = false
          rw [hb2, hocc]
          rfl

theorem pySplitAux_nooccur (sep : List Char) :
    ∀ (s : List Char) (fuel : Nat) (acc : List Char),
      occurs sep s = false → pySplitAux sep fuel acc s = [acc.reverse ++ s] := by
  intro s
  induction s with
  | nil => intro fuel acc _; cases fuel <;> simp [pySplitAux]
  | cons c cs ih =>
      intro fuel acc h
      simp only [occurs, Bool.or_eq_false_iff] at h
      cases fuel with
      | zero => rfl
      | succ f =>
          rw [pySplitAux, if_neg (by simp [h.1]), ih f (c :: acc) h.2]
          simp

theorem pySplitAux_fuel_irrel (sep : List Char) :
    ∀ (fuel : Nat) (s : List Char) (fuel' : Nat) (acc : List Char),
      s.length < fuel → s.length < fuel' →
      pySplitAux sep fuel acc s = pySplitAux sep fuel' acc s := by
  intro fuel
  induction fuel with
  | zero => intro s fuel' acc h _; exact absurd h (Nat.not_lt_zero _)
  | succ f ih =>
      intro s fuel' acc h h'
      cases s with
      | nil => cases fuel' <;> rfl
      | cons c cs =>
          cases fuel' with
          | zero => exact absurd h' (Nat.not_lt_zero _)
          | succ f' =>
              simp only [List.length_cons, Nat.succ_lt_succ_iff] at h h'
              rw [pySplitAux, pySplitAux]
              by_cases hb : begins sep (c :: cs)
              · rw [if_pos hb, if_pos hb]
                have hd : (List.drop (sep.length - 1) cs).length ≤ cs.length := by
                  simp [List.length_drop]
                rw [ih (List.drop (sep.length - 1) cs) f' []
                  (Nat.lt_of_le_of_lt hd h) (Nat.lt_of_le_of_lt hd h')]
              · rw [if_neg hb, if_neg hb]
                exact ih cs f' (c :: acc) h h'

theorem pySplitAux_splitFirst (sep : List Char) (hsep : sep ≠ []) :
    ∀ (s pre post : List Char) (fuel : Nat), s.length < fuel →
      splitFirst sep s = some (pre, post) →
      ∀ acc, pySplitAux sep fuel acc s =
        (acc.reverse ++ pre) :: pySplitAux sep (post.length + 1) [] post := by
  intro s
  induction s with
  | nil =>
      intro pre post fuel _ h
      cases sep with
      | nil => exact absurd rfl hsep
      | cons p ps => simp [splitFirst, begins] at h
  | cons c cs ih =>
      intro pre post fuel hf h acc
      cases fuel with
      | zero => exact absurd hf (Nat.not_lt_zero _)
      | succ f =>
          by_cases hb : begins sep (c :: cs)
          · rw [splitFirst, if_pos hb] at h
            obtain ⟨rfl, rfl⟩ :
                pre = [] ∧ List.drop sep.length (c :: cs) = post := by
              simpa using h
            rw [pySplitAux, if_pos hb]
            cases sep with
            | nil => exact absurd rfl hsep
            | cons p ps =>
                simp only [List.length_cons, List.drop_succ_cons,
                  Nat.add_sub_cancel, List.append_nil]
                have hd1 : (List.drop ps.length cs).length ≤ cs.length := by
                  simp [List.length_drop]
                have hd2 : cs.length < f := by
                  simpa [Nat.succ_lt_succ_iff] using hf
                rw [pySplitAux_fuel_irrel (p :: ps) f
                  (List.drop ps.length cs)
                  ((List.drop ps.length cs).length + 1) []
                  (Nat.lt_of_le_of_lt hd1 hd2) (Nat.lt_succ_self _)]
          · rw [splitFirst, if_neg hb] at h
            obtain ⟨pq, hcs, heq⟩ := Option.map_eq_some'.mp h
            obtain ⟨rfl, rfl⟩ : c :: pq.1 = pre ∧ pq.2 = post :=
              Prod.mk.injEq .. ▸ heq
            rw [pySplitAux, if_neg hb,
              ih pq.1 pq.2 f (by simpa [Nat.succ_lt_succ_iff] using hf)
                hcs (c :: acc)]
            simp

theorem pySplitAux_length_pos (sep : List Char) :
    ∀ (fuel : Nat) (acc x : List Char),
      1 ≤ (pySplitAux sep fuel acc x).length := by
  intro fuel
  induction fuel with
  | zero => intro acc x; cases x <;> simp [pySplitAux]
  | succ f ih =>
      intro acc x
      cases x with
      | nil => simp [pySplitAux]
      | cons c cs =>
          rw [pySplitAux]
          by_cases hb : begins sep (c :: cs)
          · rw [if_pos hb]; simp
          · rw [if_neg hb]; exact ih (c :: acc) cs

/-- C2 counterexample: for a response containing the separator token twice,
the claim says the first occurrence is authoritative (explanation `"a"`,
query `"b QUERY: c"`), but `split` cuts at every occurrence, the two-part
branch is not taken, and the whole text becomes the candidate query. -/
theorem split_multiple_query_tokens :
    splitResponse "THINKING: a QUERY: b QUERY: c" =
      ("No explicit thinking provided", "THINKING: a QUERY: b QUERY: c") ∧
    (splitResponse "THINKING: a QUERY: b QUERY: c").2 ≠ "b QUERY: c" :=
  ⟨rfl, by decide⟩

/-- C2 (amended): the split is on every occurrence of `"QUERY:"`, and the
two-part treatment applies exactly when the token occurs exactly once: the
text before that (first and only) occurrence, with every `"THINKING:"`
label removed and stripped, is the explanation, and the stripped text after
it is the candidate query.  With zero occurrences — or two or more — the
placeholder explanation is used and the entire text is the candidate. -/
theorem split_response_amended :
    (∀ (s pre post : List Char),
        splitFirst ("QUERY:".toList) s = some (pre, post) →
        occurs ("QUERY:".toList) post = false →
        s = pre ++ "QUERY:".toList ++ post ∧
        occurs ("QUERY:".toList) pre = false ∧
        splitResponse (String.mk s) =
          (pyStrip (pyReplace "THINKING:" "" (String.mk pre)),
           pyStrip (String.mk post))) ∧
    (∀ (s : List Char), occurs ("QUERY:".toList) s = false →
        splitResponse (String.mk s) =
          ("No explicit thinking provided", String.mk s)) ∧
    (∀ (s pre post : List Char),
        splitFirst ("QUERY:".toList) s = some (pre, post) →
        occurs ("QUERY:".toList) post = true →
        splitResponse (String.mk s) =
          ("No explicit thinking provided", String.mk s)) := by
  have hsep : ("QUERY:".toList) ≠ [] := by decide
  refine ⟨?_, ?_, ?_⟩
  · intro s pre post h1 h2
    obtain ⟨hdec, hocc⟩ := splitFirst_some_spec _ hsep s pre post h1
    refine ⟨hdec, hocc, ?_⟩
    have hB := pySplitAux_splitFirst _ hsep s pre post
      ((String.mk s).length + 1) (Nat.lt_succ_self _) h1 []
    have hpost := pySplitAux_nooccur ("QUERY:".toList) post
      (post.length + 1) [] h2
    have hps : pySplit "QUERY:" (String.mk s) =
        [String.mk pre, String.mk post] := by
      show (pySplitAux "QUERY:".toList ((String.mk s).length + 1) []
          s).map String.mk = [String.mk pre, String.mk post]
      rw [hB, hpost]
      rfl
    simp only [splitResponse, hps]
    rfl
  · intro s h
    have hS := pySplitAux_nooccur ("QUERY:".toList) s
      ((String.mk s).length + 1) [] h
    have hps : pySplit "QUERY:" (String.mk s) = [String.mk s] := by
      show (pySplitAux "QUERY:".toList ((String.mk s).length + 1) []
          s).map String.mk = [String.mk s]
      rw [hS]
      rfl
    simp only [splitResponse, hps]
    rfl
  · intro s pre post h1 h2
    have hB := pySplitAux_splitFirst _ hsep s pre post
      ((String.mk s).length + 1) (Nat.lt_succ_self _) h1 []
    obtain ⟨p2, q2, hsf⟩ : ∃ p2 q2,
        splitFirst ("QUERY:".toList) post = some (p2, q2) := by
      cases hc : splitFirst ("QUERY:".toList) post with
      | none =>
          rw [(splitFirst_none_iff _ post).mp hc] at h2
          cases h2
      | some pq => exact ⟨pq.1, pq.2, rfl⟩
    have hB2 := pySplitAux_splitFirst _ hsep post p2 q2
      (post.length + 1) (Nat.lt_succ_self _) hsf []
    rw [hB2] at hB
    have hq2 := pySplitAux_length_pos ("QUERY:".toList) (q2.length + 1) [] q2
    have hcond : ((pySplit "QUERY:" (String.mk s)).length == 2) = false := by
      show (((pySplitAux "QUERY:".toList ((String.mk s).length + 1) []
          s).map String.mk).length == 2) = false
      rw [hB]
      simp only [List.map_cons, List.length_cons, List.length_map]
      rw [beq_eq_false_iff_ne]
      omega
    simp only [splitResponse, hcond]
    rfl

/-- Witness for C2 (amended), at the spec round-trip example. -/
theorem split_response_amended_witness :
    splitResponse "THINKING: x\nQUERY: \x7b\"a\":1\x7d" =
      ("x", "\x7b\"a\":1\x7d") := by
  have h := (split_response_amended.1
    ("THINKING: x\nQUERY: \x7b\"a\":1\x7d".toList)
    ("THINKING: x\n".toList) (" \x7b\"a\":1\x7d".toList) rfl rfl).2.2
  exact h.trans rfl

/-! ### C8: cleaning is idempotent under re-fencing -/

theorem ends_self (x p : List Char) (hp : p.reverse = p) :
    begins p ((x ++ p).reverse) = true := by
  rw [List.reverse_append, hp]
  exact begins_append_self p x.reverse

theorem jsonVal_j_err (fuel : Nat) (rest : List Char) :
    jsonVal (fuel + 1) ('j' :: rest) = .error "Expecting value" := rfl

theorem cleanQueryL_fenced (c : List Char)
    (hjs : begins ['j', 's', 'o', 'n'] c = false) :
    cleanQueryL (fence ++ '\n' :: (c ++ '\n' :: fence)) = c := by
  have hb1 : begins fence (fence ++ '\n' :: (c ++ '\n' :: fence)) = true :=
    begins_append_self fence _
  have hb2 : begins fence (fence ++ '\n' :: (c ++ '\n' :: fence)).reverse
      = true := by
    have hw2 : fence ++ '\n' :: (c ++ '\n' :: fence) =
        (fence ++ '\n' :: (c ++ ['\n'])) ++ fence := by
      simp [List.append_assoc]
    rw [hw2]
    exact ends_self _ fence rfl
  have hstrip : joinNL (((splitLines
      (fence ++ '\n' :: (c ++ '\n' :: fence))).drop 1).dropLast) = c := by
    rw [splitLines_append, splitLines_append,
      splitLines_no_newline fence (by decide)]
    simp only [List.singleton_append, List.drop_succ_cons, List.drop_zero,
      List.dropLast_concat]
    exact joinNL_splitLines c
  have hcond : (begins fence (fence ++ '\n' :: (c ++ '\n' :: fence)) &&
      begins fence (fence ++ '\n' :: (c ++ '\n' :: fence)).reverse) = true := by
    rw [hb1, hb2]
    rfl
  have hjs2 : begins ['j', 's', 'o', 'n'] (joinNL (((splitLines
      (fence ++ '\n' :: (c ++ '\n' :: fence))).drop 1).dropLast)) = false := by
    rw [hstrip]
    exact hjs
  unfold cleanQueryL
  rw [if_pos hcond, if_neg (by simp only [hjs2]; simp)]
  exact hstrip

theorem cleanQuery_wrapFence (c : List Char)
    (hjs : begins ['j', 's', 'o', 'n'] c = false) :
    cleanQuery (wrapFence (String.mk c)) = String.mk c := by
  have hw : (wrapFence (String.mk c)).toList =
      fence ++ '\n' :: (c ++ '\n' :: fence) := by
    simp [wrapFence, toList_append, toList_mk, List.append_assoc]
  show String.mk (cleanQueryL ((wrapFence (String.mk c)).toList)) = String.mk c
  rw [hw]
  exact congrArg String.mk (cleanQueryL_fenced c hjs)

/-- C8: for any candidate query text whose cleaned form parses as a JSON
object, wrapping the cleaned text in a triple-backtick fenced block and
re-applying the cleaning rules yields the very same text, which parses to
the same JSON object. -/
theorem clean_after_refence (q : String) (fs : List (String × Json))
    (h : jsonParse (cleanQuery q) = .ok (.obj fs)) :
    cleanQuery (wrapFence (cleanQuery q)) = cleanQuery q ∧
    jsonParse (cleanQuery (wrapFence (cleanQuery q))) = .ok (.obj fs) := by
  have hjs : begins ['j', 's', 'o', 'n'] (cleanQueryL q.toList) = false := by
    apply eq_false_of_ne_true
    intro hb
    obtain ⟨t, ht⟩ : ∃ t, cleanQueryL q.toList = 'j' :: t := by
      cases hl : cleanQueryL q.toList with
      | nil => rw [hl] at hb; simp [begins] at hb
      | cons c0 cs0 =>
          rw [hl] at hb
          simp only [begins, Bool.and_eq_true, beq_iff_eq] at hb
          have hc0 : c0 = 'j' := hb.1.symm
          subst hc0
          exact ⟨cs0, rfl⟩
    have herr : jsonParse (cleanQuery q) = .error "Expecting value" := by
      show jsonParse (String.mk (cleanQueryL q.toList)) = _
      rw [ht]
      rfl
    rw [herr] at h
    cases h
  have hcw := cleanQuery_wrapFence (cleanQueryL q.toList) hjs
  have hcq : cleanQuery q = String.mk (cleanQueryL q.toList) := rfl
  constructor
  · rw [hcq]
    exact hcw
  · rw [hcq] at h
    rw [hcq, hcw]
    exact h

/-- Witness for C8 at a concrete fenced, `json`-tagged model response. -/
theorem clean_after_refence_witness :
    jsonParse (cleanQuery (wrapFence
        (cleanQuery "```json\n\x7b\"a\": 1\x7d\n```"))) =
      .ok (.obj [("a", Json.num 1)]) :=
  (clean_after_refence "```json\n\x7b\"a\": 1\x7d\n```"
    [("a", Json.num 1)] rfl).2

/-! ### C9: the prompt builder line counts -/

theorem line_canonical (f v : String) :
    ("- " ++ f ++ ": " ++ ("Example value: " ++ v)).toList =
      ("- ".toList ++ f.toList) ++
        (": Example value: ".toList ++ v.toList) := by
  have h0 : (": ".toList ++ "Example value: ".toList) =
      ": Example value: ".toList := by decide
  simp only [toList_append, List.append_assoc, ← h0]

theorem fdLine_fd (f v : String) :
    isFieldDescLine (String.mk (("- ".toList ++ f.toList) ++
      (": Example value: ".toList ++ v.toList))) = true := by
  have hoc := occurs_append_mid (": Example value: ".toList)
    ("- ".toList ++ f.toList) (v.toList)
  show (begins "- ".toList (("- ".toList ++ f.toList) ++
      (": Example value: ".toList ++ v.toList)) &&
    occurs ": Example value: ".toList (("- ".toList ++ f.toList) ++
      (": Example value: ".toList ++ v.toList))) = true
  rw [hoc, begins_append_of_begins "- ".toList ("- ".toList ++ f.toList)
    (": Example value: ".toList ++ v.toList)
    (begins_append_self "- ".toList f.toList)]
  rfl

theorem fdLine_shape (f v : String) :
    isShapeLine (String.mk (("- ".toList ++ f.toList) ++
      (": Example value: ".toList ++ v.toList))) = false := rfl

theorem fdLine_no_newline (f v : String) (hf : '\n' ∉ f.toList)
    (hv : '\n' ∉ v.toList) :
    '\n' ∉ ("- " ++ f ++ ": " ++ ("Example value: " ++ v)).toList := by
  rw [line_canonical]
  simp only [List.mem_append]
  rintro ((h1 | h1) | (h1 | h1))
  · exact absurd h1 (by decide)
  · exact hf h1
  · exact absurd h1 (by decide)
  · exact hv h1

theorem fdesc_block_counts (pairs : List (String × String))
    (h : ∀ p ∈ pairs, '\n' ∉ p.1.toList ∧ '\n' ∉ p.2.toList) :
    (splitLines (joinNL (pairs.map fun p =>
        ("- " ++ p.1 ++ ": " ++ ("Example value: " ++ p.2)).toList))).countP
      (fun l => isFieldDescLine (String.mk l)) = pairs.length ∧
    (splitLines (joinNL (pairs.map fun p =>
        ("- " ++ p.1 ++ ": " ++ ("Example value: " ++ p.2)).toList))).countP
      (fun l => isShapeLine (String.mk l)) = 0 := by
  induction pairs with
  | nil => exact ⟨by decide, by decide⟩
  | cons p rest ih =>
      have hp := h p (List.mem_cons_self p rest)
      have hnl := fdLine_no_newline p.1 p.2 hp.1 hp.2
      have hfd : isFieldDescLine (String.mk
          (("- " ++ p.1 ++ ": " ++ ("Example value: " ++ p.2)).toList))
          = true := by
        rw [line_canonical]
        exact fdLine_fd p.1 p.2
      have hsh : isShapeLine (String.mk
          (("- " ++ p.1 ++ ": " ++ ("Example value: " ++ p.2)).toList))
          = false := by
        rw [line_canonical]
        exact fdLine_shape p.1 p.2
      cases rest with
      | nil =>
          simp only [List.map_cons, List.map_nil, joinNL,
            splitLines_no_newline _ hnl, List.countP_cons, List.countP_nil,
            hfd, hsh, List.length_cons, List.length_nil]
          exact ⟨by simp, by simp⟩
      | cons r rs =>
          have ih2 := ih fun q hq => h q (List.mem_cons_of_mem p hq)
          simp only [List.map_cons] at ih2 ⊢
          simp only [joinNL]
          rw [splitLines_append, splitLines_no_newline _ hnl]
          have h1 : List.countP (fun l => isFieldDescLine (String.mk l))
              [("- " ++ p.1 ++ ": " ++ ("Example value: " ++ p.2)).toList]
              = 1 := by
            simp only [List.countP_cons, List.countP_nil, hfd,
              eq_self_iff_true, if_true]
          have h2 : List.countP (fun l => isShapeLine (String.mk l))
              [("- " ++ p.1 ++ ": " ++ ("Example value: " ++ p.2)).toList]
              = 0 := by
            simp only [List.countP_cons, List.countP_nil, hsh,
              Bool.false_eq_true, if_false]
          constructor
          · rw [List.countP_append, h1, ih2.1]
            simp only [List.length_cons]
            omega
          · rw [List.countP_append, h2, ih2.2]

set_option maxRecDepth 8000 in
theorem promptHead_counts :
    (splitLines (String.intercalate "\n" promptHead).toList).countP
      (fun l => isFieldDescLine (String.mk l)) = 0 ∧
    (splitLines (String.intercalate "\n" promptHead).toList).countP
      (fun l => isShapeLine (String.mk l)) = 0 := by decide

set_option maxRecDepth 8000 in
theorem promptTail_counts :
    (splitLines (String.intercalate "\n" promptTail).toList).countP
      (fun l => isFieldDescLine (String.mk l)) = 0 ∧
    (splitLines (String.intercalate "\n" promptTail).toList).countP
      (fun l => isShapeLine (String.mk l)) = 3 := by decide

/-- C9: for every field catalog built from newline-free field names and
example values, the rendered system prompt contains exactly one
field-description line per field (`- <field>: Example value: <value>`) and
exactly three query-shape example lines; the text around the interpolated
field list is the fixed template, so only the field list varies. -/
theorem prompt_line_counts (pairs : List (String × String))
    (h : ∀ p ∈ pairs, '\n' ∉ p.1.toList ∧ '\n' ∉ p.2.toList) :
    (splitLinesStr (systemPrompt (pairs.map fun p =>
        (p.1, "Example value: " ++ p.2)))).countP isFieldDescLine =
      pairs.length ∧
    (splitLinesStr (systemPrompt (pairs.map fun p =>
        (p.1, "Example value: " ++ p.2)))).countP isShapeLine = 3 := by
  have hm := fdesc_block_counts pairs h
  have hmid : (formatFieldDescriptions (pairs.map fun p =>
      (p.1, "Example value: " ++ p.2))).toList =
      joinNL (pairs.map fun p =>
        ("- " ++ p.1 ++ ": " ++ ("Example value: " ++ p.2)).toList) := by
    simp [formatFieldDescriptions, toList_mk, List.map_map]
    rfl
  have hsp : (systemPrompt (pairs.map fun p =>
      (p.1, "Example value: " ++ p.2))).toList =
      (String.intercalate "\n" promptHead).toList ++ '\n' ::
        (joinNL (pairs.map fun p =>
            ("- " ++ p.1 ++ ": " ++ ("Example value: " ++ p.2)).toList) ++
          '\n' :: (String.intercalate "\n" promptTail).toList) := by
    rw [← hmid]
    simp [systemPrompt, toList_append, List.append_assoc,
      (by decide : "\n".toList = ['\n'])]
  have hc : (isFieldDescLine ∘ String.mk) =
      (fun l => isFieldDescLine (String.mk l)) := rfl
  have hc2 : (isShapeLine ∘ String.mk) =
      (fun l => isShapeLine (String.mk l)) := rfl
  constructor
  · show ((splitLines (systemPrompt (pairs.map fun p =>
        (p.1, "Example value: " ++ p.2))).toList).map String.mk).countP
        isFieldDescLine = pairs.length
    rw [List.countP_map, hc, hsp, splitLines_append, splitLines_append,
      List.countP_append, List.countP_append, promptHead_counts.1, hm.1,
      promptTail_counts.1]
    omega
  · show ((splitLines (systemPrompt (pairs.map fun p =>
        (p.1, "Example value: " ++ p.2))).toList).map String.mk).countP
        isShapeLine = 3
    rw [List.countP_map, hc2, hsp, splitLines_append, splitLines_append,
      List.countP_append, List.countP_append, promptHead_counts.2, hm.2,
      promptTail_counts.2]

/-- Witness for C9 on a two-field catalog: two field-description lines and
three query-shape example lines. -/
theorem prompt_line_counts_witness :
    (splitLinesStr (systemPrompt ([("name", "Al"), ("age", "30")].map fun p =>
        (p.1, "Example value: " ++ p.2)))).countP isFieldDescLine = 2 ∧
    (splitLinesStr (systemPrompt ([("name", "Al"), ("age", "30")].map fun p =>
        (p.1, "Example value: " ++ p.2)))).countP isShapeLine = 3 :=
  prompt_line_counts [("name", "Al"), ("age", "30")] (by decide)

end CsvAgent
